import Mathlib

/-!
Verification of the Synthesis Metrics Extraction and Estimation Engine
(`scripts/analyze.py`) of the Multipliers repository.

The Python source is shallowly embedded: Python `int` becomes `ℤ` (parsed
counts are digit strings, hence nonnegative), Python `float` arithmetic is
modelled exactly over `ℚ`, Python regular-expression operations are modelled
by executable functions over `List Char` that mirror the specific patterns
used in the source (ASCII reading of `\d`, `\s`, `\w`), and operations that
can raise (`/` with a zero denominator raises `ZeroDivisionError`) return
`Except String _`.
-/

/-! ### Character classes and small string helpers

ASCII models of Python's `\d`, `\s`, `\w` character classes and of
`str.strip` / `str.split('\n')` / `int(...)` on a digit string. -/

/-- ASCII model of Python's whitespace class used by the regex token
matching and by `str.strip`. -/
def pyIsSpace (c : Char) : Bool :=
  c == ' ' || c == '\t' || c == '\n' || c == '\r' || c == '\x0b' || c == '\x0c'

/-- ASCII model of the regex class `[A-Z]`. -/
def isUpperAZ (c : Char) : Bool := 'A' ≤ c && c ≤ 'Z'

/-- ASCII model of the regex class `\w` = `[a-zA-Z0-9_]`. -/
def isWordChar (c : Char) : Bool := c.isAlphanum || c == '_'

/-- `int(...)` applied to the digit string captured by `(\d+)`. -/
def digitsToNat (ds : List Char) : ℕ :=
  ds.foldl (fun acc c => 10 * acc + (c.toNat - 48)) 0

/-- Python `str.strip()` (restricted to ASCII whitespace). -/
def pyStrip (l : List Char) : List Char :=
  ((l.dropWhile pyIsSpace).reverse.dropWhile pyIsSpace).reverse

/-- Python `str.split(sep)` for a one-character separator. -/
def splitOnChar (sep : Char) : List Char → List (List Char)
  | [] => [[]]
  | c :: cs =>
    if c = sep then [] :: splitOnChar sep cs
    else
      match splitOnChar sep cs with
      | [] => [[c]]
      | h :: t => (c :: h) :: t

/-! ### The hierarchy-section splitter

Model of `re.finditer(r'=== design hierarchy ===.*?(?=\n===|\Z)', output,
re.DOTALL)` (line 104 of `analyze.py`): a match starts at each leftmost
occurrence of the literal header and its lazy tail `.*?` extends to the
first position where the lookahead `\n===` holds, or to the end of the
input; scanning resumes after each match. -/

/-- The lazy tail `.*?(?=\n===|\Z)`: consume the shortest prefix such that
the remaining text starts with `stop` or is empty; returns (consumed, rest). -/
def lazyUpTo (stop : List Char) : List Char → (List Char × List Char)
  | [] => ([], [])
  | c :: cs =>
    if stop.isPrefixOf (c :: cs) then ([], c :: cs)
    else
      let p := lazyUpTo stop cs
      (c :: p.1, p.2)

/-- All matches of `header.*?(?=stop|\Z)` in order; `fuel` bounds recursion
(one unit per character examined, so `fuel = input length` is exhaustive). -/
def findSectionsAux (header stop : List Char) : ℕ → List Char → List (List Char)
  | 0, _ => []
  | _ + 1, [] => []
  | fuel + 1, c :: cs =>
    if header.isPrefixOf (c :: cs) then
      let after := (c :: cs).drop header.length
      let p := lazyUpTo stop after
      (header ++ p.1) :: findSectionsAux header stop fuel p.2
    else
      findSectionsAux header stop fuel cs

/-- The header literal of a design-hierarchy section. -/
def hierarchyHeader : List Char := "=== design hierarchy ===".toList

/-- The lookahead literal `\n===` that terminates a lazy section match. -/
def sectionStop : List Char := "\n===".toList

/-- All design-hierarchy sections of a synthesis log, in order of
occurrence (the Python `hierarchy_sections` list). -/
def hierarchySections (output : String) : List (List Char) :=
  findSectionsAux hierarchyHeader sectionStop output.toList.length output.toList

/-! ### The two regex searches of the parser -/

/-- Model of `re.search(r'(\d+)\s+' ++ kw, text)` for a literal keyword
`kw`, returning the first captured number: the leftmost position carrying a
maximal digit run followed by at least one whitespace character followed by
the keyword.  (`\d+` and `\s+` are greedy over disjoint classes, so no
backtracking configuration other than maximal runs can succeed.) -/
def searchNumBefore (kw : List Char) : List Char → Option ℕ
  | [] => none
  | c :: cs =>
    if c.isDigit then
      let ds := (c :: cs).takeWhile Char.isDigit
      let rest := (c :: cs).drop ds.length
      let ws := rest.takeWhile pyIsSpace
      if ws ≠ [] ∧ kw.isPrefixOf (rest.drop ws.length) then some (digitsToNat ds)
      else searchNumBefore kw cs
    else searchNumBefore kw cs

/-- Model of the group `(\$_[A-Z]+_|\$\w+)` (line 126): alternative one is
tried first; each subpattern is greedy, and failed alternatives fall
through.  Returns the captured token. -/
def matchGateToken (l : List Char) : Option (List Char) :=
  match l with
  | '$' :: rest =>
    let alt1 : Option (List Char) :=
      match rest with
      | '_' :: rest2 =>
        let caps := rest2.takeWhile isUpperAZ
        match caps, rest2.drop caps.length with
        | _ :: _, '_' :: _ => some ('$' :: '_' :: (caps ++ ['_']))
        | _, _ => none
      | _ => none
    match alt1 with
    | some tok => some tok
    | none =>
      let w := rest.takeWhile isWordChar
      if w = [] then none else some ('$' :: w)
  | _ => none

/-- Model of `re.match(r'(\d+)\s+(\$_[A-Z]+_|\$\w+)', line)` (anchored at
the start of the stripped line), returning (count, gate-type token). -/
def matchGateLine (l : List Char) : Option (ℕ × List Char) :=
  let ds := l.takeWhile Char.isDigit
  if ds = [] then none
  else
    let rest := l.drop ds.length
    let ws := rest.takeWhile pyIsSpace
    if ws = [] then none
    else
      match matchGateToken (rest.drop ws.length) with
      | none => none
      | some tok => some (digitsToNat ds, tok)

/-! ### The data model -/

/-- The `SynthesisResults` dataclass (lines 10–31 of `analyze.py`).
Counts are Python ints (`ℤ`), derived metrics Python floats (`ℚ`). -/
structure SynthesisResults where
  name : String
  total_cells : ℤ := 0
  wires : ℤ := 0
  public_wires : ℤ := 0
  memories : ℤ := 0
  processes : ℤ := 0
  and_gates : ℤ := 0
  or_gates : ℤ := 0
  xor_gates : ℤ := 0
  not_gates : ℤ := 0
  nand_gates : ℤ := 0
  nor_gates : ℤ := 0
  xnor_gates : ℤ := 0
  mux_gates : ℤ := 0
  add_cells : ℤ := 0
  critical_path_delay_ns : ℚ := 0
  estimated_area_ge : ℚ := 0
  estimated_power_mw : ℚ := 0
  max_frequency_mhz : ℚ := 0
  simulation_time_ms : ℚ := 0

/-! ### The report parser (`parse_yosys_output`, lines 101–150) -/

/-- One iteration of the line loop (lines 121–148): strip the line, skip it
when empty or unmatched, otherwise assign the count to the field selected
by the recognized gate-type token. -/
def applyGateLine (r : SynthesisResults) (line : List Char) : SynthesisResults :=
  let l := pyStrip line
  if l = [] then r
  else
    match matchGateLine l with
    | none => r
    | some (count, gate_type) =>
      if gate_type = "$_AND_".toList then { r with and_gates := (count : ℤ) }
      else if gate_type = "$_OR_".toList then { r with or_gates := (count : ℤ) }
      else if gate_type = "$_XOR_".toList then { r with xor_gates := (count : ℤ) }
      else if gate_type = "$_NOT_".toList then { r with not_gates := (count : ℤ) }
      else if gate_type = "$_NAND_".toList then { r with nand_gates := (count : ℤ) }
      else if gate_type = "$_NOR_".toList then { r with nor_gates := (count : ℤ) }
      else if gate_type = "$_XNOR_".toList then { r with xnor_gates := (count : ℤ) }
      else if gate_type = "$_MUX_".toList then { r with mux_gates := (count : ℤ) }
      else if gate_type = "$add".toList then { r with add_cells := (count : ℤ) }
      else r

/-- The three whole-section searches (lines 109–119) applied to the last
hierarchy section. -/
def applySectionSearches (r : SynthesisResults) (sec : List Char) : SynthesisResults :=
  let r := match searchNumBefore "cells".toList sec with
           | some n => { r with total_cells := (n : ℤ) }
           | none => r
  let r := match searchNumBefore "wires".toList sec with
           | some n => { r with wires := (n : ℤ) }
           | none => r
  match searchNumBefore "public wires".toList sec with
  | some n => { r with public_wires := (n : ℤ) }
  | none => r

/-- `parse_yosys_output` (lines 101–150): start from an empty record, take
the last hierarchy section if any, run the three searches, then fold the
line loop over the section's lines. -/
def parse_yosys_output (name : String) (output : String) : SynthesisResults :=
  let r : SynthesisResults := { name := name }
  match (hierarchySections output).getLast? with
  | none => r
  | some hierarchy_text =>
    (splitOnChar '\n' hierarchy_text).foldl applyGateLine
      (applySectionSearches r hierarchy_text)

/-! ### The metrics estimator (lines 152–221) -/

/-- The sum of the nine classified gate/arithmetic counts (lines 164–166
and the identical lines 212–214). -/
def known_gates (result : SynthesisResults) : ℤ :=
  result.and_gates + result.or_gates + result.xor_gates +
  result.not_gates + result.nand_gates + result.nor_gates +
  result.xnor_gates + result.mux_gates + result.add_cells

/-- `other_cells = max(0, result.total_cells - known_gates)` (line 168 and
the identical line 215). -/
def other_cells (result : SynthesisResults) : ℤ :=
  max 0 (result.total_cells - known_gates result)

/-- `calculate_area` (lines 152–171); the float weights 1.33, 2.67, 0.67
are the exact rationals 133/100, 267/100, 67/100. -/
def calculate_area (result : SynthesisResults) : ℚ :=
  (result.and_gates : ℚ) * (133/100) +
  (result.or_gates : ℚ) * (133/100) +
  (result.xor_gates : ℚ) * (267/100) +
  (result.not_gates : ℚ) * (67/100) +
  (result.nand_gates : ℚ) * 1 +
  (result.nor_gates : ℚ) * 1 +
  (result.xnor_gates : ℚ) * (267/100) +
  (result.mux_gates : ℚ) * 2 +
  (result.add_cells : ℚ) * 8 +
  (other_cells result : ℚ) * 2

/-- The reduction-tree depth of line 181/188:
`math.ceil(math.log(32) / math.log(1.5))`, characterized as the least `n`
with `1.5 ^ n ≥ 32` (the two agree because `32` is not an exact power of
`3/2`; theorem `tree_levels_eq_ceil_log` below proves the ceiling form). -/
theorem tree_levels_exists : ∃ n : ℕ, (32 : ℚ) ≤ (3/2) ^ n := ⟨9, by norm_num⟩

/-- The value `levels` shared by the Wallace and Dadda branches. -/
def tree_levels : ℕ := Nat.find tree_levels_exists

/-- `estimate_critical_path` (lines 173–193): Classical = 32 stages ×
0.3 ns; Wallace and Dadda = `tree_levels` × 0.25 ns + 2.0 ns final adder;
any other name = 5.0 ns. -/
def estimate_critical_path (result : SynthesisResults) : ℚ :=
  if result.name = "Classical" then 32 * (3/10)
  else if result.name = "Wallace" then (tree_levels : ℚ) * (1/4) + 2
  else if result.name = "Dadda" then (tree_levels : ℚ) * (1/4) + 2
  else 5

/-- `estimate_power` (lines 195–221): dynamic power
`activity × C_total × V² × f`, in mW.  The constants are
voltage = 1.0 V, frequency = 100 MHz, activity = 0.2,
cap_per_gate = 1e-15 F. -/
def estimate_power (result : SynthesisResults) : ℚ :=
  let voltage : ℚ := 1
  let frequency : ℚ := 100000000
  let activity : ℚ := 1/5
  let cap_per_gate : ℚ := 1/1000000000000000
  let total_cap : ℚ :=
    (result.and_gates : ℚ) * 2 * cap_per_gate +
    (result.or_gates : ℚ) * 2 * cap_per_gate +
    (result.xor_gates : ℚ) * 4 * cap_per_gate +
    (result.not_gates : ℚ) * 1 * cap_per_gate +
    (result.nand_gates : ℚ) * 2 * cap_per_gate +
    (result.nor_gates : ℚ) * 2 * cap_per_gate +
    (result.xnor_gates : ℚ) * 4 * cap_per_gate +
    (result.mux_gates : ℚ) * 3 * cap_per_gate +
    (result.add_cells : ℚ) * 10 * cap_per_gate +
    (other_cells result : ℚ) * (5/2) * cap_per_gate
  let power_w := activity * total_cap * voltage ^ 2 * frequency
  power_w * 1000

/-! ### The per-variant pipeline (`synthesize_design`, lines 76–83)

Process invocation and log writing are outside the embedded core; the
embedding consumes the captured tool output text. -/

/-- The pure tail of `synthesize_design`: parse the output, fill the three
derived metrics, then set `max_frequency_mhz = 1000 / delay` only when the
delay is positive (lines 76–83). -/
def synthesize_design (name : String) (output : String) : SynthesisResults :=
  let result := parse_yosys_output name output
  let result := { result with estimated_area_ge := calculate_area result }
  let result := { result with critical_path_delay_ns := estimate_critical_path result }
  let result := { result with estimated_power_mw := estimate_power result }
  if result.critical_path_delay_ns > 0 then
    { result with max_frequency_mhz := 1000 / result.critical_path_delay_ns }
  else result

/-! ### The result store and the fallback records (lines 223–257) -/

/-- The `self.results` dict: an insertion-ordered association list with
Python-dict update semantics. -/
abbrev Store := List (String × SynthesisResults)

/-- Python dict assignment `d[k] = v`: replace in place if the key exists,
else append. -/
def dictInsert (k : String) (v : SynthesisResults) : Store → Store
  | [] => [(k, v)]
  | (k', v') :: rest =>
    if k' = k then (k, v) :: rest else (k', v') :: dictInsert k v rest

/-- Python dict lookup `d[k]` / `k in d`. -/
def dictLookup (k : String) : Store → Option SynthesisResults
  | [] => none
  | (k', v) :: rest => if k' = k then some v else dictLookup k rest

/-- The theoretical placeholder record for Classical (lines 244–247). -/
def fallbackClassical : SynthesisResults :=
  { name := "Classical", total_cells := 2048, estimated_area_ge := 5000,
    critical_path_delay_ns := 96/10, estimated_power_mw := 15,
    max_frequency_mhz := 1042/10 }

/-- The theoretical placeholder record for Dadda (lines 248–251). -/
def fallbackDadda : SynthesisResults :=
  { name := "Dadda", total_cells := 1800, estimated_area_ge := 4200,
    critical_path_delay_ns := 675/100, estimated_power_mw := 125/10,
    max_frequency_mhz := 1481/10 }

/-- The theoretical placeholder record for Wallace (lines 252–255). -/
def fallbackWallace : SynthesisResults :=
  { name := "Wallace", total_cells := 2200, estimated_area_ge := 5100,
    critical_path_delay_ns := 675/100, estimated_power_mw := 148/10,
    max_frequency_mhz := 1481/10 }

/-- The store built by `analyze_all` in fallback mode (lines 243–255):
Classical, Dadda, Wallace assigned in that order. -/
def fallback_results : Store :=
  dictInsert "Wallace" fallbackWallace
    (dictInsert "Dadda" fallbackDadda
      (dictInsert "Classical" fallbackClassical []))

/-! ### The comparison aggregator (`generate_report`, lines 259–383)

The printed report is modelled as the structured data it displays; a
Python float division whose denominator is zero raises
`ZeroDivisionError`, modelled by `Except.error`. -/

/-- Python float `/`, which raises `ZeroDivisionError` on a zero
denominator. -/
def pydiv (a b : ℚ) : Except String ℚ :=
  if b = 0 then Except.error "ZeroDivisionError" else Except.ok (a / b)

/-- Left-to-right effectful map: the Python `for` loops that compute one
ratio per present variant, stopping at the first raised exception. -/
def exMapList (f : α → Except String β) : List α → Except String (List β)
  | [] => Except.ok []
  | a :: as => do
    let b ← f a
    let bs ← exMapList f as
    pure (b :: bs)

/-- Python `min(x, *xs)` / `min(list)`: first minimum wins on ties. -/
def pyMinList (x : ℚ) (xs : List ℚ) : ℚ :=
  xs.foldl (fun b a => if a < b then a else b) x

/-- Python `max(x, *xs)` / `max(list)`: first maximum wins on ties. -/
def pyMaxList (x : ℚ) (xs : List ℚ) : ℚ :=
  xs.foldl (fun b a => if b < a then a else b) x

/-- `min(vals) if vals else 1` (lines 275, 290, 305). -/
def minValues : List ℚ → ℚ
  | [] => 1
  | x :: xs => pyMinList x xs

/-- `max(vals) if vals else 1` (line 290). -/
def maxValues : List ℚ → ℚ
  | [] => 1
  | x :: xs => pyMaxList x xs

/-- Python `min(items, key=...)` over a nonempty iterable: the first item
with the minimal key (later items replace only on strictly smaller key). -/
def pyMinBy (key : SynthesisResults → ℚ) (x : String × SynthesisResults)
    (xs : Store) : String × SynthesisResults :=
  xs.foldl (fun b a => if key a.2 < key b.2 then a else b) x

/-- The fixed canonical display order of lines 277, 292, 307, 318. -/
def canonicalNames : List String := ["Classical", "Dadda", "Wallace"]

/-- `for name in [...]: if name in self.results:` — the present variants in
canonical order, paired with their records. -/
def presentCanonical (store : Store) : List (String × SynthesisResults) :=
  canonicalNames.filterMap (fun n => (dictLookup n store).map (fun r => (n, r)))

/-- The data printed by the report: one row per present variant in each of
the three metric tables, the pairwise speedup/size statistics of section 5,
and the three minimum-by-key selections of section 6. -/
structure ComparisonReport where
  area_rows : List (String × ℤ × ℚ × ℚ)
  timing_rows : List (String × ℚ × ℚ × ℚ)
  power_rows : List (String × ℚ × ℚ × ℚ)
  wallace_vs_classical : Option ℚ
  dadda_vs_classical : Option ℚ
  wallace_dadda_timing_diff : Option ℚ
  dadda_area_saving : Option ℚ
  fastest : String
  smallest : String
  least_power : String

/-- Section 1 (lines 268–281): rows (name, cells, area, area / min_area). -/
def areaSection (store : Store) : Except String (List (String × ℤ × ℚ × ℚ)) :=
  let min_area := minValues (store.map (fun p => p.2.estimated_area_ge))
  exMapList (fun p => do
      let rel ← pydiv p.2.estimated_area_ge min_area
      pure (p.1, p.2.total_cells, p.2.estimated_area_ge, rel))
    (presentCanonical store)

/-- Section 2 (lines 283–296): rows (name, delay, max freq,
max_delay / delay). -/
def timingSection (store : Store) : Except String (List (String × ℚ × ℚ × ℚ)) :=
  let max_delay := maxValues (store.map (fun p => p.2.critical_path_delay_ns))
  exMapList (fun p => do
      let speedup ← pydiv max_delay p.2.critical_path_delay_ns
      pure (p.1, p.2.critical_path_delay_ns, p.2.max_frequency_mhz, speedup))
    (presentCanonical store)

/-- Section 3 (lines 298–312): rows (name, power, power × 10,
power / min_power). -/
def powerSection (store : Store) : Except String (List (String × ℚ × ℚ × ℚ)) :=
  let min_power := minValues (store.map (fun p => p.2.estimated_power_mw))
  exMapList (fun p => do
      let rel ← pydiv p.2.estimated_power_mw min_power
      pure (p.1, p.2.estimated_power_mw, p.2.estimated_power_mw * 10, rel))
    (presentCanonical store)

/-- Lines 338–341: Classical delay ÷ Wallace delay, only when both are
present. -/
def speedupWallaceClassical (store : Store) : Except String (Option ℚ) :=
  match dictLookup "Classical" store, dictLookup "Wallace" store with
  | some c, some w =>
    (pydiv c.critical_path_delay_ns w.critical_path_delay_ns).map some
  | _, _ => Except.ok none

/-- Lines 343–346: Classical delay ÷ Dadda delay, only when both are
present. -/
def speedupDaddaClassical (store : Store) : Except String (Option ℚ) :=
  match dictLookup "Classical" store, dictLookup "Dadda" store with
  | some c, some d =>
    (pydiv c.critical_path_delay_ns d.critical_path_delay_ns).map some
  | _, _ => Except.ok none

/-- Lines 348–358: the Wallace-vs-Dadda timing difference and area saving
percentages, only when both are present. -/
def wallaceDaddaStats (store : Store) : Except String (Option (ℚ × ℚ)) :=
  match dictLookup "Wallace" store, dictLookup "Dadda" store with
  | some w, some d => do
    let w_delay := w.critical_path_delay_ns
    let d_delay := d.critical_path_delay_ns
    let m := if d_delay < w_delay then d_delay else w_delay
    let tdiff ← pydiv |w_delay - d_delay| m
    let asave ← pydiv (w.estimated_area_ge - d.estimated_area_ge) w.estimated_area_ge
    pure (some (tdiff * 100, asave * 100))
  | _, _ => Except.ok none

/-- `generate_report` (lines 259–383): an empty store short-circuits to the
"no results" report (line 264); otherwise the sections are computed in
print order, any `ZeroDivisionError` aborting the report at that point. -/
def generate_report (store : Store) : Except String (Option ComparisonReport) :=
  match store with
  | [] => Except.ok none
  | s :: rest => do
    let arows ← areaSection (s :: rest)
    let trows ← timingSection (s :: rest)
    let prows ← powerSection (s :: rest)
    let wc ← speedupWallaceClassical (s :: rest)
    let dc ← speedupDaddaClassical (s :: rest)
    let wd ← wallaceDaddaStats (s :: rest)
    let best_speed := pyMinBy (fun r => r.critical_path_delay_ns) s rest
    let best_area := pyMinBy (fun r => r.estimated_area_ge) s rest
    let best_power := pyMinBy (fun r => r.estimated_power_mw) s rest
    pure (some
      { area_rows := arows, timing_rows := trows, power_rows := prows,
        wallace_vs_classical := wc, dadda_vs_classical := dc,
        wallace_dadda_timing_diff := wd.map Prod.fst,
        dadda_area_saving := wd.map Prod.snd,
        fastest := best_speed.1, smallest := best_area.1,
        least_power := best_power.1 })

/-! ### Concrete test fixtures and derived definitions used by the claims -/

/-- A synthesis log holding two hierarchy sections whose counts differ. -/
def twoSectionText : String :=
  "=== design hierarchy ===\n5 cells\n9 wires\n6 public wires\n8 $_AND_\n=== design hierarchy ===\n7 cells\n3 wires\n2 public wires\n4 $_AND_\n"

/-- The second (last) hierarchy section of `twoSectionText`, standalone. -/
def lastSectionText : String :=
  "=== design hierarchy ===\n7 cells\n3 wires\n2 public wires\n4 $_AND_\n"

/-- The first hierarchy section of `twoSectionText`, standalone. -/
def firstSectionText : String :=
  "=== design hierarchy ===\n5 cells\n9 wires\n6 public wires\n8 $_AND_"

/-- A hierarchy section in which the `$_AND_` token occurs on two lines
with different counts. -/
def doubleAndText : String :=
  "=== design hierarchy ===\n5 $_AND_\n7 $_AND_\n"

/-- A store holding Wallace and Dadda only, inserted in the order Wallace
then Dadda (the reverse of canonical order), with equal minimum delays. -/
def tieStore : Store :=
  dictInsert "Dadda" fallbackDadda (dictInsert "Wallace" fallbackWallace [])

/-- A store holding Dadda and Wallace only (Classical absent), as when the
Classical synthesis step failed upstream. -/
def wdStore : Store :=
  dictInsert "Wallace" fallbackWallace (dictInsert "Dadda" fallbackDadda [])

/-- A store holding one pipeline record parsed from an empty synthesis log
(all counts zero, hence zero area and power). -/
def zeroStore : Store :=
  dictInsert "Classical" (synthesize_design "Classical" "") []

/-- The report computed by `generate_report` on the fallback store. -/
def fallbackReport : ComparisonReport :=
  { area_rows := [("Classical", 2048, 5000, 25/21), ("Dadda", 1800, 4200, 1),
                  ("Wallace", 2200, 5100, 17/14)],
    timing_rows := [("Classical", 48/5, 521/5, 1), ("Dadda", 27/4, 1481/10, 64/45),
                    ("Wallace", 27/4, 1481/10, 64/45)],
    power_rows := [("Classical", 15, 150, 6/5), ("Dadda", 25/2, 125, 1),
                   ("Wallace", 74/5, 148, 148/125)],
    wallace_vs_classical := some (64/45),
    dadda_vs_classical := some (64/45),
    wallace_dadda_timing_diff := some 0,
    dadda_area_saving := some (300/17),
    fastest := "Dadda", smallest := "Dadda", least_power := "Dadda" }

/-- All fifteen integer count fields of a record are nonnegative. -/
def countsNonneg (r : SynthesisResults) : Prop :=
  0 ≤ r.total_cells ∧ 0 ≤ r.wires ∧ 0 ≤ r.public_wires ∧ 0 ≤ r.memories ∧
  0 ≤ r.processes ∧ 0 ≤ r.and_gates ∧ 0 ≤ r.or_gates ∧ 0 ≤ r.xor_gates ∧
  0 ≤ r.not_gates ∧ 0 ≤ r.nand_gates ∧ 0 ≤ r.nor_gates ∧ 0 ≤ r.xnor_gates ∧
  0 ≤ r.mux_gates ∧ 0 ≤ r.add_cells

/-! ### Supporting lemmas -/

theorem exBind_ok_iff {α β : Type} {e : Except String α} {k : α → Except String β}
    {b : β} : (e >>= k) = Except.ok b ↔ ∃ a, e = Except.ok a ∧ k a = Except.ok b := by
  cases e with
  | error s => simp [Bind.bind, Except.bind]
  | ok a => simp [Bind.bind, Except.bind]

theorem pure_ok_iff {β : Type} {b b' : β} :
    (pure b' : Except String β) = Except.ok b ↔ b' = b := by
  simp [pure, Except.pure]

theorem pydiv_ok_iff {a b q : ℚ} :
    pydiv a b = Except.ok q ↔ b ≠ 0 ∧ q = a / b := by
  unfold pydiv
  split_ifs with h
  · simp [h]
  · simp [h, eq_comm]

theorem exMapList_ok_mem {α β : Type} {f : α → Except String β} :
    ∀ {l : List α} {bs : List β}, exMapList f l = Except.ok bs →
      ∀ b ∈ bs, ∃ a ∈ l, f a = Except.ok b := by
  intro l
  induction l with
  | nil =>
    intro bs h b hb
    simp only [exMapList, Except.ok.injEq] at h
    subst h
    simp at hb
  | cons a as ih =>
    intro bs h b hb
    simp only [exMapList, exBind_ok_iff, pure_ok_iff] at h
    obtain ⟨b0, hb0, bs0, hbs0, hcons⟩ := h
    subst hcons
    rcases List.mem_cons.mp hb with hb | hb
    · exact ⟨a, List.mem_cons_self a as, hb ▸ hb0⟩
    · obtain ⟨a', ha', hfa'⟩ := ih hbs0 b hb
      exact ⟨a', List.mem_cons_of_mem a ha', hfa'⟩

theorem exMapList_all_ok {α β : Type} {f : α → Except String β} :
    ∀ {l : List α}, (∀ a ∈ l, ∃ b, f a = Except.ok b) →
      ∃ bs, exMapList f l = Except.ok bs := by
  intro l
  induction l with
  | nil => exact fun _ => ⟨[], rfl⟩
  | cons a as ih =>
    intro h
    obtain ⟨b, hb⟩ := h a (List.mem_cons_self a as)
    obtain ⟨bs, hbs⟩ := ih (fun a' ha' => h a' (List.mem_cons_of_mem a ha'))
    refine ⟨b :: bs, ?_⟩
    simp only [exMapList, exBind_ok_iff, pure_ok_iff]
    exact ⟨b, hb, bs, hbs, rfl⟩

theorem dictLookup_mem : ∀ {s : Store} {k : String} {v : SynthesisResults},
    dictLookup k s = some v → (k, v) ∈ s := by
  intro s
  induction s with
  | nil => intro k v h; simp [dictLookup] at h
  | cons p rest ih =>
    intro k v h
    rw [dictLookup] at h
    split_ifs at h with hk
    · obtain ⟨rfl⟩ := h
      subst hk
      exact List.mem_cons_self p rest
    · exact List.mem_cons_of_mem p (ih h)

theorem presentCanonical_sub {s : Store} {p : String × SynthesisResults}
    (h : p ∈ presentCanonical s) : p ∈ s := by
  unfold presentCanonical at h
  rw [List.mem_filterMap] at h
  obtain ⟨n, _, hn⟩ := h
  rw [Option.map_eq_some'] at hn
  obtain ⟨r, hr, hp⟩ := hn
  rw [← hp]
  exact dictLookup_mem hr

theorem pyMinList_mem : ∀ (xs : List ℚ) (x : ℚ), pyMinList x xs ∈ x :: xs := by
  intro xs
  induction xs with
  | nil => intro x; simp [pyMinList]
  | cons a as ih =>
    intro x
    have hstep : pyMinList x (a :: as) = pyMinList (if a < x then a else x) as := rfl
    rw [hstep]
    rcases List.mem_cons.mp (ih (if a < x then a else x)) with h | h
    · rw [h]
      split_ifs <;> simp
    · simp [h]

theorem minValues_mem : ∀ {l : List ℚ}, l ≠ [] → minValues l ∈ l := by
  intro l h
  cases l with
  | nil => exact absurd rfl h
  | cons x xs => exact pyMinList_mem xs x

theorem pyMinBy_key_eq (key : SynthesisResults → ℚ) :
    ∀ (xs : Store) (x : String × SynthesisResults),
      key (pyMinBy key x xs).2 = pyMinList (key x.2) (xs.map (fun p => key p.2)) := by
  intro xs
  induction xs with
  | nil => intro x; rfl
  | cons a as ih =>
    intro x
    have h1 : pyMinBy key x (a :: as) = pyMinBy key (if key a.2 < key x.2 then a else x) as := rfl
    have h2 : pyMinList (key x.2) ((a :: as).map (fun p => key p.2)) =
        pyMinList (if key a.2 < key x.2 then key a.2 else key x.2) (as.map (fun p => key p.2)) := rfl
    rw [h1, h2, ih]
    congr 1
    split_ifs <;> rfl

theorem pyMinBy_decomp (key : SynthesisResults → ℚ) :
    ∀ (xs : Store) (x : String × SynthesisResults),
      ∃ pre post, x :: xs = pre ++ pyMinBy key x xs :: post ∧
        (∀ y ∈ x :: xs, key (pyMinBy key x xs).2 ≤ key y.2) ∧
        (∀ y ∈ pre, key (pyMinBy key x xs).2 < key y.2) := by
  intro xs
  induction xs with
  | nil =>
    intro x
    exact ⟨[], [], rfl, by simp [pyMinBy], by simp⟩
  | cons a as ih =>
    intro x
    have hstep : pyMinBy key x (a :: as) = pyMinBy key (if key a.2 < key x.2 then a else x) as := rfl
    by_cases hax : key a.2 < key x.2
    · obtain ⟨pre, post, hdec, hmin, hpre⟩ := ih a
      rw [if_pos hax] at hstep
      refine ⟨x :: pre, post, ?_, ?_, ?_⟩
      · rw [hstep, List.cons_append, ← hdec]
      · intro y hy
        rw [hstep]
        rcases List.mem_cons.mp hy with rfl | hy
        · exact le_of_lt (lt_of_le_of_lt (hmin a (List.mem_cons_self a as)) hax)
        · exact hmin y hy
      · intro y hy
        rw [hstep]
        rcases List.mem_cons.mp hy with rfl | hy
        · exact lt_of_le_of_lt (hmin a (List.mem_cons_self a as)) hax
        · exact hpre y hy
    · obtain ⟨pre, post, hdec, hmin, hpre⟩ := ih x
      rw [if_neg hax] at hstep
      have hxa : key x.2 ≤ key a.2 := le_of_not_lt hax
      cases pre with
      | nil =>
        rw [List.nil_append] at hdec
        obtain ⟨hx, -⟩ := List.cons_eq_cons.mp hdec
        have hminx : ∀ y ∈ x :: as, key x.2 ≤ key y.2 := by
          intro y hy
          rw [hx]
          exact hmin y hy
        refine ⟨[], a :: as, ?_, ?_, by simp⟩
        · rw [List.nil_append, hstep, ← hx]
        · intro y hy
          rw [hstep, ← hx]
          rcases List.mem_cons.mp hy with rfl | hy
          · exact le_refl _
          · rcases List.mem_cons.mp hy with rfl | hy
            · exact hxa
            · exact hminx y (List.mem_cons_of_mem x hy)
      | cons z zs =>
        rw [List.cons_append] at hdec
        obtain ⟨hxz, hrest⟩ := List.cons_eq_cons.mp hdec
        refine ⟨x :: a :: zs, post, ?_, ?_, ?_⟩
        · rw [hstep]
          conv_lhs => rw [hrest]
          simp
        · intro y hy
          rw [hstep]
          rcases List.mem_cons.mp hy with rfl | hy
          · exact hmin y (List.mem_cons_self _ _)
          · rcases List.mem_cons.mp hy with rfl | hy
            · exact le_trans (hmin x (List.mem_cons_self _ _)) hxa
            · exact hmin y (List.mem_cons_of_mem x hy)
        · intro y hy
          rw [hstep]
          rcases List.mem_cons.mp hy with rfl | hy
          · exact hxz ▸ hpre z (List.mem_cons_self z zs)
          · rcases List.mem_cons.mp hy with rfl | hy
            · exact lt_of_lt_of_le (hxz ▸ hpre z (List.mem_cons_self z zs)) hxa
            · exact hpre y (List.mem_cons_of_mem z hy)

theorem find_of_decomp {α : Type} {p : α → Bool} :
    ∀ (pre : List α) (x : α) (post : List α), p x = true →
      (∀ y ∈ pre, p y = false) → (pre ++ x :: post).find? p = some x := by
  intro pre
  induction pre with
  | nil =>
    intro x post hx _
    simp [List.find?_cons, hx]
  | cons z zs ih =>
    intro x post hx hpre
    have hz : p z = false := hpre z (List.mem_cons_self z zs)
    rw [List.cons_append, List.find?_cons_of_neg _ (by simp [hz])]
    exact ih x post hx (fun y hy => hpre y (List.mem_cons_of_mem z hy))

theorem pyMinBy_find (key : SynthesisResults → ℚ) (s : String × SynthesisResults)
    (rest : Store) :
    ((s :: rest).find? (fun y =>
        decide (key y.2 ≤ minValues ((s :: rest).map (fun p => key p.2)))))
      = some (pyMinBy key s rest) := by
  obtain ⟨pre, post, hdec, hmin, hpre⟩ := pyMinBy_decomp key rest s
  have hkey : minValues ((s :: rest).map (fun p => key p.2)) = key (pyMinBy key s rest).2 := by
    rw [List.map_cons]
    exact (pyMinBy_key_eq key rest s).symm
  simp only [hkey]
  conv_lhs => rw [hdec]
  refine find_of_decomp pre _ post (by simp) ?_
  intro y hy
  simpa using not_le.mpr (hpre y hy)

theorem generate_report_ok_inv {s : String × SynthesisResults} {rest : Store}
    {rep : ComparisonReport}
    (h : generate_report (s :: rest) = Except.ok (some rep)) :
    areaSection (s :: rest) = Except.ok rep.area_rows ∧
    timingSection (s :: rest) = Except.ok rep.timing_rows ∧
    powerSection (s :: rest) = Except.ok rep.power_rows ∧
    speedupWallaceClassical (s :: rest) = Except.ok rep.wallace_vs_classical ∧
    speedupDaddaClassical (s :: rest) = Except.ok rep.dadda_vs_classical ∧
    (∃ wd, wallaceDaddaStats (s :: rest) = Except.ok wd ∧
      rep.wallace_dadda_timing_diff = wd.map Prod.fst ∧
      rep.dadda_area_saving = wd.map Prod.snd) ∧
    rep.fastest = (pyMinBy (fun r => r.critical_path_delay_ns) s rest).1 ∧
    rep.smallest = (pyMinBy (fun r => r.estimated_area_ge) s rest).1 ∧
    rep.least_power = (pyMinBy (fun r => r.estimated_power_mw) s rest).1 := by
  simp only [generate_report, exBind_ok_iff, pure_ok_iff, Option.some.injEq] at h
  obtain ⟨ar, har, tr, htr, pr, hpr, wc, hwc, dc, hdc, wd, hwd, hrep⟩ := h
  subst hrep
  exact ⟨har, htr, hpr, hwc, hdc, ⟨wd, hwd, rfl, rfl⟩, rfl, rfl, rfl⟩

theorem tree_levels_eq : tree_levels = 9 := by
  rw [tree_levels, Nat.find_eq_iff]
  refine ⟨by norm_num, ?_⟩
  intro m hm
  interval_cases m <;> norm_num

theorem ceil_log_32_base_15 : ⌈Real.log 32 / Real.log 1.5⌉ = 9 := by
  have h15 : (0:ℝ) < Real.log 1.5 := Real.log_pos (by norm_num)
  rw [Int.ceil_eq_iff]
  constructor
  · rw [lt_div_iff₀ h15]
    have h8 : ((9:ℤ) - 1 : ℝ) * Real.log 1.5 = Real.log ((1.5:ℝ) ^ (8:ℕ)) := by
      rw [Real.log_pow]
      push_cast
      ring
    rw [h8]
    exact Real.log_lt_log (by positivity) (by norm_num)
  · rw [div_le_iff₀ h15]
    have h9 : ((9:ℤ) : ℝ) * Real.log 1.5 = Real.log ((1.5:ℝ) ^ (9:ℕ)) := by
      rw [Real.log_pow]
      push_cast
      ring
    rw [h9]
    exact (Real.log_le_log_iff (by norm_num) (by positivity)).mpr (by norm_num)

theorem estimate_critical_path_pos (r : SynthesisResults) :
    0 < estimate_critical_path r := by
  unfold estimate_critical_path
  split_ifs <;> positivity

set_option maxHeartbeats 1600000 in
theorem applyGateLine_nonneg (r : SynthesisResults) (line : List Char)
    (h : countsNonneg r) : countsNonneg (applyGateLine r line) := by
  unfold applyGateLine
  by_cases hl : pyStrip line = []
  · simpa [hl] using h
  · rw [if_neg hl]
    cases hm : matchGateLine (pyStrip line) with
    | none => exact h
    | some p =>
      obtain ⟨count, tok⟩ := p
      obtain ⟨h1, h2, h3, h4, h5, h6, h7, h8, h9, h10, h11, h12, h13, h14⟩ := h
      dsimp only
      split_ifs
      exacts [⟨h1, h2, h3, h4, h5, Int.natCast_nonneg count, h7, h8, h9, h10, h11, h12, h13, h14⟩,
        ⟨h1, h2, h3, h4, h5, h6, Int.natCast_nonneg count, h8, h9, h10, h11, h12, h13, h14⟩,
        ⟨h1, h2, h3, h4, h5, h6, h7, Int.natCast_nonneg count, h9, h10, h11, h12, h13, h14⟩,
        ⟨h1, h2, h3, h4, h5, h6, h7, h8, Int.natCast_nonneg count, h10, h11, h12, h13, h14⟩,
        ⟨h1, h2, h3, h4, h5, h6, h7, h8, h9, Int.natCast_nonneg count, h11, h12, h13, h14⟩,
        ⟨h1, h2, h3, h4, h5, h6, h7, h8, h9, h10, Int.natCast_nonneg count, h12, h13, h14⟩,
        ⟨h1, h2, h3, h4, h5, h6, h7, h8, h9, h10, h11, Int.natCast_nonneg count, h13, h14⟩,
        ⟨h1, h2, h3, h4, h5, h6, h7, h8, h9, h10, h11, h12, Int.natCast_nonneg count, h14⟩,
        ⟨h1, h2, h3, h4, h5, h6, h7, h8, h9, h10, h11, h12, h13, Int.natCast_nonneg count⟩,
        ⟨h1, h2, h3, h4, h5, h6, h7, h8, h9, h10, h11, h12, h13, h14⟩]

theorem applySectionSearches_nonneg (r : SynthesisResults) (sec : List Char)
    (h : countsNonneg r) : countsNonneg (applySectionSearches r sec) := by
  unfold applySectionSearches
  obtain ⟨h1, h2, h3, h4, h5, h6, h7, h8, h9, h10, h11, h12, h13, h14⟩ := h
  cases searchNumBefore "cells".toList sec <;>
    cases searchNumBefore "wires".toList sec <;>
      cases searchNumBefore "public wires".toList sec <;> dsimp only <;>
        exact ⟨by first | exact Int.natCast_nonneg _ | assumption,
          by first | exact Int.natCast_nonneg _ | assumption,
          by first | exact Int.natCast_nonneg _ | assumption,
          h4, h5, h6, h7, h8, h9, h10, h11, h12, h13, h14⟩

theorem foldl_gateLines_nonneg :
    ∀ (lines : List (List Char)) (r : SynthesisResults),
      countsNonneg r → countsNonneg (lines.foldl applyGateLine r) := by
  intro lines
  induction lines with
  | nil => intro r h; simpa using h
  | cons l ls ih => intro r h; exact ih _ (applyGateLine_nonneg r l h)

theorem base_record_nonneg (name : String) :
    countsNonneg ({ name := name } : SynthesisResults) := by
  exact ⟨le_refl 0, le_refl 0, le_refl 0, le_refl 0, le_refl 0, le_refl 0,
    le_refl 0, le_refl 0, le_refl 0, le_refl 0, le_refl 0, le_refl 0,
    le_refl 0, le_refl 0⟩

theorem fallback_results_eq :
    fallback_results =
      [("Classical", fallbackClassical), ("Dadda", fallbackDadda),
       ("Wallace", fallbackWallace)] := rfl

theorem synth_classical_empty :
    synthesize_design "Classical" "" =
      { name := "Classical", critical_path_delay_ns := 48/5,
        max_frequency_mhz := 625/6 } := by
  have hp : parse_yosys_output "Classical" "" = { name := "Classical" } := rfl
  rw [synthesize_design, hp]
  norm_num +decide [calculate_area, estimate_critical_path, estimate_power,
    other_cells, known_gates]

theorem generate_report_fallback :
    generate_report fallback_results = Except.ok (some fallbackReport) := by
  norm_num +decide [generate_report, areaSection, timingSection, powerSection,
    speedupWallaceClassical, speedupDaddaClassical, wallaceDaddaStats,
    presentCanonical, canonicalNames, dictLookup, exMapList, pydiv,
    minValues, maxValues, pyMinList, pyMaxList, pyMinBy,
    fallback_results, dictInsert, fallbackClassical, fallbackDadda,
    fallbackWallace, fallbackReport, Bind.bind, Except.bind, Except.map,
    pure, Except.pure, abs]

/-! ### The claims -/

set_option maxRecDepth 40000 in
/-- C4: for any input text holding two or more design-hierarchy sections
with different cell counts, `parse_yosys_output` reports the total cells,
wires, public wires, and per-gate-type counts taken from the last
hierarchy section only; counts from earlier sections are ignored.  Part 1:
the parse result depends only on the last hierarchy section.  Parts 2–7: a
two-section log parses to the second section's counts (7 cells, 3 wires, 2
public wires, 4 AND gates), while its first section alone parses to 5
cells and 8 AND gates. -/
theorem C4_last_section_precedence :
    (∀ (name o₁ o₂ : String),
        (hierarchySections o₁).getLast? = (hierarchySections o₂).getLast? →
        parse_yosys_output name o₁ = parse_yosys_output name o₂) ∧
    (parse_yosys_output "X" twoSectionText).total_cells = 7 ∧
    (parse_yosys_output "X" twoSectionText).wires = 3 ∧
    (parse_yosys_output "X" twoSectionText).public_wires = 2 ∧
    (parse_yosys_output "X" twoSectionText).and_gates = 4 ∧
    (parse_yosys_output "X" firstSectionText).total_cells = 5 ∧
    (parse_yosys_output "X" firstSectionText).and_gates = 8 := by
  refine ⟨?_, by decide, by decide, by decide, by decide, by decide, by decide⟩
  intro name o₁ o₂ h
  unfold parse_yosys_output
  rw [h]

set_option maxRecDepth 40000 in
/-- C4 witness: the two-section log and its last section alone have the
same last hierarchy section, so they parse identically. -/
theorem C4_last_section_precedence_witness :
    parse_yosys_output "X" twoSectionText = parse_yosys_output "X" lastSectionText :=
  C4_last_section_precedence.1 "X" twoSectionText lastSectionText (by decide)

/-- C5: for any text input whatsoever the parser is total (it is a total
Lean function) and returns a record whose structural count fields are all
nonnegative; on input with no hierarchy section (such as the empty string)
every field keeps its zero default. -/
theorem C5_parser_totality (name output : String) :
    countsNonneg (parse_yosys_output name output) ∧
    parse_yosys_output name "" = { name := name } := by
  constructor
  · unfold parse_yosys_output
    cases hgl : (hierarchySections output).getLast? with
    | none => exact base_record_nonneg name
    | some sec =>
      exact foldl_gateLines_nonneg _ _
        (applySectionSearches_nonneg _ _ (base_record_nonneg name))
  · rfl

set_option maxRecDepth 40000 in
/-- C10: when the last hierarchy section has several lines with the same
recognized gate-type token, the parser overwrites rather than accumulates:
processing a `$_AND_` line sets `and_gates` to that line's count whatever
the record held before, and a section with AND counts 5 then 7 parses to
7, not 5 + 7. -/
theorem C10_overwrite_not_accumulate :
    (∀ r : SynthesisResults, (applyGateLine r ("7 $_AND_".toList)).and_gates = 7) ∧
    (parse_yosys_output "X" doubleAndText).and_gates = 7 ∧
    ((5 : ℤ) + 7 ≠ 7) := by
  refine ⟨?_, by decide, by decide⟩
  intro r
  rfl

/-- C6: for every record, the "other cells" remainder shared by the area
model and the power model is `max 0 (total_cells - known_gates)`: it is
never negative, it is zero whenever the classified sum exceeds
`total_cells`, it is the plain difference otherwise, and both
`calculate_area` and `estimate_power` price exactly this clamped remainder
(at 2 GE and at 1/20000 mW per cell respectively) on top of what they
charge for the classified gates alone. -/
theorem C6_other_cells_clamp (r : SynthesisResults) :
    0 ≤ other_cells r ∧
    (r.total_cells < known_gates r → other_cells r = 0) ∧
    (known_gates r ≤ r.total_cells →
      other_cells r = r.total_cells - known_gates r) ∧
    calculate_area r =
      calculate_area { r with total_cells := known_gates r } +
        (other_cells r : ℚ) * 2 ∧
    estimate_power r =
      estimate_power { r with total_cells := known_gates r } +
        (other_cells r : ℚ) * (1/20000) := by
  have h0 : other_cells { r with total_cells := known_gates r } = 0 := by
    unfold other_cells known_gates
    simp
  refine ⟨le_max_left 0 _, ?_, ?_, ?_, ?_⟩
  · intro h
    exact max_eq_left (by omega)
  · intro h
    exact max_eq_right (by omega)
  · unfold calculate_area
    rw [h0]
    dsimp only
    push_cast
    ring
  · unfold estimate_power
    rw [h0]
    dsimp only
    push_cast
    ring

/-- C6 witness: a record whose classified sum (3 AND gates) exceeds its
total cell count (1) gets a zero, not negative, remainder. -/
theorem C6_other_cells_clamp_witness :
    other_cells { name := "X", total_cells := 1, and_gates := 3 } = 0 :=
  (C6_other_cells_clamp { name := "X", total_cells := 1, and_gates := 3 }).2.1
    (by decide)

/-- C7: the timing model reads only the variant name: records with equal
names get equal delays whatever their gate counts; Wallace and Dadda both
yield `tree_levels` × 0.25 + 2.0 where `tree_levels` is
ceil(log 32 / log 1.5) (= 9); and every unrecognized name yields the fixed
default 5.0. -/
theorem C7_architecture_timing :
    (∀ r₁ r₂ : SynthesisResults, r₁.name = r₂.name →
        estimate_critical_path r₁ = estimate_critical_path r₂) ∧
    (∀ r : SynthesisResults, r.name = "Wallace" ∨ r.name = "Dadda" →
        estimate_critical_path r = (tree_levels : ℚ) * (1/4) + 2) ∧
    (⌈Real.log 32 / Real.log 1.5⌉ = (tree_levels : ℤ)) ∧
    (∀ r : SynthesisResults, r.name ≠ "Classical" → r.name ≠ "Wallace" →
        r.name ≠ "Dadda" → estimate_critical_path r = 5) := by
  refine ⟨?_, ?_, ?_, ?_⟩
  · intro r₁ r₂ h
    unfold estimate_critical_path
    rw [h]
  · intro r h
    unfold estimate_critical_path
    rcases h with h | h
    · rw [h, if_neg (by decide), if_pos rfl]
    · rw [h, if_neg (by decide), if_neg (by decide), if_pos rfl]
  · rw [ceil_log_32_base_15, tree_levels_eq]
    norm_num
  · intro r h1 h2 h3
    unfold estimate_critical_path
    rw [if_neg h1, if_neg h2, if_neg h3]

/-- C7 witness: two Wallace records with different gate counts get the
same delay, Wallace and Dadda get the same delay, and the unrecognized
name "Foo" gets the default 5.0. -/
theorem C7_architecture_timing_witness :
    estimate_critical_path { name := "Wallace" } =
      estimate_critical_path { name := "Wallace", and_gates := 99, total_cells := 5 } ∧
    estimate_critical_path { name := "Wallace" } =
      estimate_critical_path { name := "Dadda" } ∧
    estimate_critical_path { name := "Foo" } = 5 :=
  ⟨C7_architecture_timing.1 _ _ rfl,
   by rw [C7_architecture_timing.2.1 { name := "Wallace" } (Or.inl rfl),
     C7_architecture_timing.2.1 { name := "Dadda" } (Or.inr rfl)],
   C7_architecture_timing.2.2.2 { name := "Foo" } (by decide) (by decide) (by decide)⟩

/-- C9: the record synthesized from an empty log under the name
"Classical" parses to all-zero counts and the estimator yields area 0.0,
delay 32 × 0.3 = 9.6 ns, frequency 1000/9.6 ≈ 104.17 MHz (within 0.01), and
power 0.0 mW. -/
theorem C9_classical_zero_scenario :
    (parse_yosys_output "Classical" "").total_cells = 0 ∧
    known_gates (parse_yosys_output "Classical" "") = 0 ∧
    (synthesize_design "Classical" "").estimated_area_ge = 0 ∧
    (synthesize_design "Classical" "").critical_path_delay_ns = 32 * (3/10) ∧
    (synthesize_design "Classical" "").critical_path_delay_ns = 96/10 ∧
    (synthesize_design "Classical" "").max_frequency_mhz =
      1000 / (synthesize_design "Classical" "").critical_path_delay_ns ∧
    |(synthesize_design "Classical" "").max_frequency_mhz - 10417/100| < 1/100 ∧
    (synthesize_design "Classical" "").estimated_power_mw = 0 := by
  rw [synth_classical_empty]
  refine ⟨rfl, rfl, rfl, by norm_num, by norm_num, by norm_num, ?_, rfl⟩
  have habs : (625/6 : ℚ) - 10417/100 = -(1/300) := by norm_num
  dsimp only
  rw [habs, abs_neg, abs_of_pos (by norm_num : (0:ℚ) < 1/300)]
  norm_num

/-- C2 (amended): every record produced by the synthesis pipeline has a
positive critical-path delay and `max_frequency_mhz` equal to
1000 / delay exactly (hence within 1e-9 relative tolerance); since the
pipeline delay is always positive, the zero-sentinel branch is never
taken there.  The fixed fallback placeholder records satisfy the
inversion only to roughly 3.3e-4 relative error (their frequencies are
rounded to one decimal place), not to 1e-9. -/
theorem C2_frequency_inversion :
    (∀ name output : String,
        0 < (synthesize_design name output).critical_path_delay_ns ∧
        (synthesize_design name output).max_frequency_mhz =
          1000 / (synthesize_design name output).critical_path_delay_ns) ∧
    |fallbackClassical.max_frequency_mhz -
        1000 / fallbackClassical.critical_path_delay_ns| ≤
      (1/3000) * (1000 / fallbackClassical.critical_path_delay_ns) ∧
    |fallbackDadda.max_frequency_mhz -
        1000 / fallbackDadda.critical_path_delay_ns| ≤
      (1/3000) * (1000 / fallbackDadda.critical_path_delay_ns) ∧
    |fallbackWallace.max_frequency_mhz -
        1000 / fallbackWallace.critical_path_delay_ns| ≤
      (1/3000) * (1000 / fallbackWallace.critical_path_delay_ns) := by
  refine ⟨?_, ?_, ?_, ?_⟩
  · intro name output
    unfold synthesize_design
    dsimp only
    split_ifs with hc
    · exact ⟨hc, rfl⟩
    · exact absurd (estimate_critical_path_pos _) hc
  · norm_num [fallbackClassical, abs_le]
  · norm_num [fallbackDadda, abs_le]
  · norm_num [fallbackWallace, abs_le]

/-- C2 counterexample: the fallback Classical placeholder has a positive
delay of 9.6 ns but its stored frequency 104.2 MHz differs from
1000 / 9.6 = 104.1666… MHz by far more than 1e-9 relative tolerance, so
the claim fails for the fallback records. -/
theorem C2_fallback_tolerance_violation :
    0 < fallbackClassical.critical_path_delay_ns ∧
    (1/1000000000) * (1000 / fallbackClassical.critical_path_delay_ns) <
      |fallbackClassical.max_frequency_mhz -
        1000 / fallbackClassical.critical_path_delay_ns| := by
  constructor
  · norm_num [fallbackClassical]
  · have h : fallbackClassical.max_frequency_mhz -
        1000 / fallbackClassical.critical_path_delay_ns = 1/30 := by
      norm_num [fallbackClassical]
    rw [h, abs_of_pos (by norm_num : (0:ℚ) < 1/30)]
    norm_num [fallbackClassical]

theorem exBind_ok {α β : Type} (a : α) (k : α → Except String β) :
    (Except.ok a >>= k : Except String β) = k a := rfl

theorem row_ok {α : Type} (a b : ℚ) (g : ℚ → α) (hb : b ≠ 0) :
    (pydiv a b >>= fun rel => pure (g rel) : Except String α) =
      Except.ok (g (a / b)) := by
  unfold pydiv
  rw [if_neg hb]
  rfl

/-- C1 (amended): in every successfully generated report, the area and
power tables report each present variant's value divided by the minimum
value across present variants (so the variant holding the minimum is
exactly 1.00×), while the timing table reports a speedup: the maximum
delay across present variants divided by the variant's delay (so the
variant holding the *maximum* delay is 1.00×, and the minimum-delay
variant receives the largest ratio, not 1.00×). -/
theorem C1_relative_ratios (store : Store) (rep : ComparisonReport)
    (h : generate_report store = Except.ok (some rep)) :
    (∀ nm cells ar rel, (nm, cells, ar, rel) ∈ rep.area_rows →
        rel = ar / minValues (store.map (fun p => p.2.estimated_area_ge)) ∧
        (ar = minValues (store.map (fun p => p.2.estimated_area_ge)) → rel = 1)) ∧
    (∀ nm d fr sp, (nm, d, fr, sp) ∈ rep.timing_rows →
        sp = maxValues (store.map (fun p => p.2.critical_path_delay_ns)) / d ∧
        (d = maxValues (store.map (fun p => p.2.critical_path_delay_ns)) → sp = 1)) ∧
    (∀ nm pw en rel, (nm, pw, en, rel) ∈ rep.power_rows →
        rel = pw / minValues (store.map (fun p => p.2.estimated_power_mw)) ∧
        (pw = minValues (store.map (fun p => p.2.estimated_power_mw)) → rel = 1)) := by
  cases store with
  | nil => simp [generate_report] at h
  | cons s rest =>
    obtain ⟨har, htr, hpr, -, -, -, -, -, -⟩ := generate_report_ok_inv h
    refine ⟨?_, ?_, ?_⟩
    · intro nm cells ar rel hmem
      unfold areaSection at har
      obtain ⟨p, hp, hfp⟩ := exMapList_ok_mem har _ hmem
      simp only [exBind_ok_iff, pure_ok_iff, pydiv_ok_iff, Prod.mk.injEq] at hfp
      obtain ⟨rel', ⟨hne, hrel'⟩, -, -, har2, hrel⟩ := hfp
      subst hrel
      subst hrel'
      subst har2
      exact ⟨rfl, fun hmin => by rw [hmin, div_self hne]⟩
    · intro nm d fr sp hmem
      unfold timingSection at htr
      obtain ⟨p, hp, hfp⟩ := exMapList_ok_mem htr _ hmem
      simp only [exBind_ok_iff, pure_ok_iff, pydiv_ok_iff, Prod.mk.injEq] at hfp
      obtain ⟨sp', ⟨hne, hsp'⟩, -, hd, -, hsp⟩ := hfp
      subst hsp
      subst hsp'
      subst hd
      exact ⟨rfl, fun hmax => by rw [hmax, div_self (hmax ▸ hne)]⟩
    · intro nm pw en rel hmem
      unfold powerSection at hpr
      obtain ⟨p, hp, hfp⟩ := exMapList_ok_mem hpr _ hmem
      simp only [exBind_ok_iff, pure_ok_iff, pydiv_ok_iff, Prod.mk.injEq] at hfp
      obtain ⟨rel', ⟨hne, hrel'⟩, -, hpw, -, hrel⟩ := hfp
      subst hrel
      subst hrel'
      subst hpw
      exact ⟨rfl, fun hmin => by rw [hmin, div_self hne]⟩

/-- C1 witness: in the fallback-store report, the Dadda area row (whose
area 4200 is the minimum) is reported as exactly 1. -/
theorem C1_relative_ratios_witness :
    (1 : ℚ) = 4200 / minValues (fallback_results.map (fun p => p.2.estimated_area_ge)) :=
  ((C1_relative_ratios fallback_results fallbackReport generate_report_fallback).1
    "Dadda" 1800 4200 1 (by simp [fallbackReport])).1

/-- C1 counterexample: in the fallback store the minimum delay across
present variants is Dadda's 6.75 ns, yet the delay table reports Dadda at
64/45 ≈ 1.42×, not 1.00× — the delay ratio is relative to the maximum, so
the claim fails for the delay metric. -/
theorem C1_min_delay_not_one :
    minValues (fallback_results.map (fun p => p.2.critical_path_delay_ns)) =
      fallbackDadda.critical_path_delay_ns ∧
    (generate_report fallback_results).map (Option.map (fun rep =>
        rep.timing_rows.map (fun row => (row.1, row.2.2.2)))) =
      Except.ok (some [("Classical", (1:ℚ)), ("Dadda", 64/45), ("Wallace", 64/45)]) ∧
    ((64:ℚ)/45 ≠ 1) := by
  refine ⟨?_, ?_, by norm_num⟩
  · norm_num [fallback_results_eq, minValues, pyMinList, fallbackClassical,
      fallbackDadda, fallbackWallace]
  · rw [generate_report_fallback]
    norm_num [fallbackReport, Except.map]

/-- C3 (amended): the "fastest" / "smallest" / "least power" selections
pick the *first* variant in the Store's insertion (iteration) order whose
metric attains the minimum — Python's `min` over `dict.items()` — not the
first in canonical name order.  (`analyze_all` happens to insert Classical,
Dadda, Wallace in canonical order, so in actual runs the two orders
coincide.) -/
theorem C3_fastest_first_minimal (store : Store) (rep : ComparisonReport)
    (h : generate_report store = Except.ok (some rep)) :
    (store.find? (fun y => decide (y.2.critical_path_delay_ns ≤
        minValues (store.map (fun p => p.2.critical_path_delay_ns))))).map Prod.fst
      = some rep.fastest ∧
    (store.find? (fun y => decide (y.2.estimated_area_ge ≤
        minValues (store.map (fun p => p.2.estimated_area_ge))))).map Prod.fst
      = some rep.smallest ∧
    (store.find? (fun y => decide (y.2.estimated_power_mw ≤
        minValues (store.map (fun p => p.2.estimated_power_mw))))).map Prod.fst
      = some rep.least_power := by
  cases store with
  | nil => simp [generate_report] at h
  | cons s rest =>
    obtain ⟨-, -, -, -, -, -, hf, hsm, hlp⟩ := generate_report_ok_inv h
    refine ⟨?_, ?_, ?_⟩
    · rw [hf]
      simp only [pyMinBy_find]
      rfl
    · rw [hsm]
      simp only [pyMinBy_find]
      rfl
    · rw [hlp]
      simp only [pyMinBy_find]
      rfl

/-- C3 witness: applied to the fallback store (inserted in canonical
order), the first-minimal selection matches the reported Dadda picks. -/
theorem C3_fastest_first_minimal_witness :
    (fallback_results.find? (fun y => decide (y.2.critical_path_delay_ns ≤
        minValues (fallback_results.map (fun p => p.2.critical_path_delay_ns))))).map Prod.fst
      = some fallbackReport.fastest ∧
    (fallback_results.find? (fun y => decide (y.2.estimated_area_ge ≤
        minValues (fallback_results.map (fun p => p.2.estimated_area_ge))))).map Prod.fst
      = some fallbackReport.smallest ∧
    (fallback_results.find? (fun y => decide (y.2.estimated_power_mw ≤
        minValues (fallback_results.map (fun p => p.2.estimated_power_mw))))).map Prod.fst
      = some fallbackReport.least_power :=
  C3_fastest_first_minimal fallback_results fallbackReport generate_report_fallback

/-- C3 counterexample: a store holding Wallace and Dadda with equal
(minimum) delays, inserted in the order Wallace then Dadda, reports
"Wallace" as fastest — the tie is broken by insertion order, not by the
canonical order Classical, Dadda, Wallace, which would pick "Dadda". -/
theorem C3_insertion_order_tiebreak_violation :
    fallbackWallace.critical_path_delay_ns = fallbackDadda.critical_path_delay_ns ∧
    (generate_report tieStore).map (Option.map (fun rep => rep.fastest)) =
      Except.ok (some "Wallace") ∧
    ("Wallace" : String) ≠ "Dadda" := by
  refine ⟨rfl, ?_, by decide⟩
  norm_num +decide [generate_report, areaSection, timingSection, powerSection,
    speedupWallaceClassical, speedupDaddaClassical, wallaceDaddaStats,
    presentCanonical, canonicalNames, dictLookup, exMapList, pydiv,
    minValues, maxValues, pyMinList, pyMaxList, pyMinBy,
    tieStore, dictInsert, fallbackDadda, fallbackWallace,
    Bind.bind, Except.bind, Except.map, pure, Except.pure, abs]

/-- C8 (amended): aggregation over an empty Store reports "no results"
without error, and over any nonempty Store whose records carry positive
area, delay, and power (as every tool-derived record with nonzero counts
and every fallback record does) it never raises; the pairwise
speedup/area-saving comparisons are present exactly when both variants of
the pair are present — in particular a Dadda+Wallace-only store yields the
Wallace-vs-Dadda statistics but no Classical ratio.  (Without the
positivity proviso the claim fails: see the zero-area counterexample.) -/
theorem C8_partial_store_aggregation :
    generate_report [] = Except.ok none ∧
    (∀ store : Store, store ≠ [] →
      (∀ p ∈ store, 0 < p.2.estimated_area_ge ∧ 0 < p.2.critical_path_delay_ns ∧
          0 < p.2.estimated_power_mw) →
      (generate_report store).map (Option.map (fun rep =>
          (rep.wallace_vs_classical.isSome, rep.dadda_vs_classical.isSome,
           rep.wallace_dadda_timing_diff.isSome))) =
        Except.ok (some
          (((dictLookup "Classical" store).isSome &&
              (dictLookup "Wallace" store).isSome),
           ((dictLookup "Classical" store).isSome &&
              (dictLookup "Dadda" store).isSome),
           ((dictLookup "Wallace" store).isSome &&
              (dictLookup "Dadda" store).isSome)))) ∧
    (generate_report wdStore).map (Option.map (fun rep =>
        (rep.wallace_vs_classical, rep.dadda_vs_classical,
         rep.wallace_dadda_timing_diff, rep.dadda_area_saving))) =
      Except.ok (some (none, none, some 0, some (300/17))) := by
  refine ⟨rfl, ?_, ?_⟩
  · intro store hne hpos
    cases store with
    | nil => exact absurd rfl hne
    | cons s rest =>
      have hminA : minValues ((s :: rest).map (fun p => p.2.estimated_area_ge)) ≠ 0 := by
        have hmem := @minValues_mem
          ((s :: rest).map (fun p => p.2.estimated_area_ge)) (by simp)
        rw [List.mem_map] at hmem
        obtain ⟨p, hp, heq⟩ := hmem
        rw [← heq]
        exact ne_of_gt (hpos p hp).1
      have hminP : minValues ((s :: rest).map (fun p => p.2.estimated_power_mw)) ≠ 0 := by
        have hmem := @minValues_mem
          ((s :: rest).map (fun p => p.2.estimated_power_mw)) (by simp)
        rw [List.mem_map] at hmem
        obtain ⟨p, hp, heq⟩ := hmem
        rw [← heq]
        exact ne_of_gt (hpos p hp).2.2
      obtain ⟨arows, hA⟩ : ∃ bs, areaSection (s :: rest) = Except.ok bs := by
        unfold areaSection
        exact exMapList_all_ok (fun p hp => ⟨_, row_ok _ _ _ hminA⟩)
      obtain ⟨trows, hT⟩ : ∃ bs, timingSection (s :: rest) = Except.ok bs := by
        unfold timingSection
        exact exMapList_all_ok (fun p hp =>
          ⟨_, row_ok _ _ _ (ne_of_gt (hpos p (presentCanonical_sub hp)).2.1)⟩)
      obtain ⟨prows, hP⟩ : ∃ bs, powerSection (s :: rest) = Except.ok bs := by
        unfold powerSection
        exact exMapList_all_ok (fun p hp => ⟨_, row_ok _ _ _ hminP⟩)
      obtain ⟨wc, hWC, hwcs⟩ : ∃ o, speedupWallaceClassical (s :: rest) = Except.ok o ∧
          o.isSome = ((dictLookup "Classical" (s :: rest)).isSome &&
            (dictLookup "Wallace" (s :: rest)).isSome) := by
        unfold speedupWallaceClassical
        cases hc : dictLookup "Classical" (s :: rest) with
        | none => exact ⟨none, rfl, rfl⟩
        | some c =>
          cases hw : dictLookup "Wallace" (s :: rest) with
          | none => exact ⟨none, rfl, rfl⟩
          | some w =>
            have hne2 := ne_of_gt (hpos ("Wallace", w) (dictLookup_mem hw)).2.1
            refine ⟨some (c.critical_path_delay_ns / w.critical_path_delay_ns), ?_, rfl⟩
            simp [pydiv, hne2, Except.map]
      obtain ⟨dc, hDC, hdcs⟩ : ∃ o, speedupDaddaClassical (s :: rest) = Except.ok o ∧
          o.isSome = ((dictLookup "Classical" (s :: rest)).isSome &&
            (dictLookup "Dadda" (s :: rest)).isSome) := by
        unfold speedupDaddaClassical
        cases hc : dictLookup "Classical" (s :: rest) with
        | none => exact ⟨none, rfl, rfl⟩
        | some c =>
          cases hd : dictLookup "Dadda" (s :: rest) with
          | none => exact ⟨none, rfl, rfl⟩
          | some d =>
            have hne2 := ne_of_gt (hpos ("Dadda", d) (dictLookup_mem hd)).2.1
            refine ⟨some (c.critical_path_delay_ns / d.critical_path_delay_ns), ?_, rfl⟩
            simp [pydiv, hne2, Except.map]
      obtain ⟨wd, hWD, hwds⟩ : ∃ o, wallaceDaddaStats (s :: rest) = Except.ok o ∧
          o.isSome = ((dictLookup "Wallace" (s :: rest)).isSome &&
            (dictLookup "Dadda" (s :: rest)).isSome) := by
        unfold wallaceDaddaStats
        cases hw : dictLookup "Wallace" (s :: rest) with
        | none => exact ⟨none, rfl, rfl⟩
        | some w =>
          cases hd : dictLookup "Dadda" (s :: rest) with
          | none => exact ⟨none, rfl, rfl⟩
          | some d =>
            have hwpos := (hpos ("Wallace", w) (dictLookup_mem hw)).2.1
            have hdpos := (hpos ("Dadda", d) (dictLookup_mem hd)).2.1
            have hwa := ne_of_gt (hpos ("Wallace", w) (dictLookup_mem hw)).1
            have hm : (if d.critical_path_delay_ns < w.critical_path_delay_ns
                then d.critical_path_delay_ns else w.critical_path_delay_ns) ≠ 0 := by
              split_ifs
              · exact ne_of_gt hdpos
              · exact ne_of_gt hwpos
            refine ⟨some
              (|w.critical_path_delay_ns - d.critical_path_delay_ns| /
                  (if d.critical_path_delay_ns < w.critical_path_delay_ns
                    then d.critical_path_delay_ns else w.critical_path_delay_ns) * 100,
                (w.estimated_area_ge - d.estimated_area_ge) / w.estimated_area_ge * 100),
              ?_, rfl⟩
            simp [pydiv, hm, hwa, Bind.bind, Except.bind, pure, Except.pure]
      have hrep : generate_report (s :: rest) = Except.ok (some
          { area_rows := arows, timing_rows := trows, power_rows := prows,
            wallace_vs_classical := wc, dadda_vs_classical := dc,
            wallace_dadda_timing_diff := wd.map Prod.fst,
            dadda_area_saving := wd.map Prod.snd,
            fastest := (pyMinBy (fun r => r.critical_path_delay_ns) s rest).1,
            smallest := (pyMinBy (fun r => r.estimated_area_ge) s rest).1,
            least_power := (pyMinBy (fun r => r.estimated_power_mw) s rest).1 }) := by
        simp only [generate_report, hA, hT, hP, hWC, hDC, hWD, exBind_ok]
        rfl
      rw [hrep]
      simp only [Except.map, Option.map_some']
      simp [hwcs, hdcs, Option.isSome_map', hwds]
  · norm_num +decide [generate_report, areaSection, timingSection, powerSection,
      speedupWallaceClassical, speedupDaddaClassical, wallaceDaddaStats,
      presentCanonical, canonicalNames, dictLookup, exMapList, pydiv,
      minValues, maxValues, pyMinList, pyMaxList, pyMinBy,
      wdStore, dictInsert, fallbackDadda, fallbackWallace,
      Bind.bind, Except.bind, Except.map, pure, Except.pure, abs]

/-- C8 witness: the full fallback store satisfies the positivity proviso,
and all three pairwise comparisons are present since all three variants
are. -/
theorem C8_partial_store_aggregation_witness :
    (generate_report fallback_results).map (Option.map (fun rep =>
        (rep.wallace_vs_classical.isSome, rep.dadda_vs_classical.isSome,
         rep.wallace_dadda_timing_diff.isSome))) =
      Except.ok (some
        (((dictLookup "Classical" fallback_results).isSome &&
            (dictLookup "Wallace" fallback_results).isSome),
         ((dictLookup "Classical" fallback_results).isSome &&
            (dictLookup "Dadda" fallback_results).isSome),
         ((dictLookup "Wallace" fallback_results).isSome &&
            (dictLookup "Dadda" fallback_results).isSome))) :=
  C8_partial_store_aggregation.2.1 fallback_results
    (by rw [fallback_results_eq]; exact List.cons_ne_nil _ _)
    (by intro p hp
        rw [fallback_results_eq] at hp
        simp only [List.mem_cons, List.not_mem_nil, or_false] at hp
        rcases hp with rfl | rfl | rfl <;>
          norm_num [fallbackClassical, fallbackDadda, fallbackWallace])

/-- C8 counterexample: a store holding one record parsed from an empty
log has area 0.0, so the area table's relative computation divides 0.0 by
a minimum of 0.0 and aggregation raises ZeroDivisionError — "never raises"
fails for degenerate all-zero records. -/
theorem C8_zero_area_raises :
    generate_report zeroStore = Except.error "ZeroDivisionError" := by
  have hz : zeroStore = [("Classical", synthesize_design "Classical" "")] := rfl
  rw [hz, synth_classical_empty]
  norm_num +decide [generate_report, areaSection, presentCanonical,
    canonicalNames, dictLookup, exMapList, pydiv, minValues, pyMinList,
    Bind.bind, Except.bind, Except.map, pure, Except.pure]

/-- C2 witness: the record synthesized from an empty log under the name
"Classical" satisfies the exact frequency inversion. -/
theorem C2_frequency_inversion_witness :
    (synthesize_design "Classical" "").max_frequency_mhz =
      1000 / (synthesize_design "Classical" "").critical_path_delay_ns :=
  (C2_frequency_inversion.1 "Classical" "").2

/-- C5 witness: parsing an arbitrary garbage input yields a record with
all count fields nonnegative. -/
theorem C5_parser_totality_witness :
    countsNonneg (parse_yosys_output "X" "== garbage\n12 cells truncated") :=
  (C5_parser_totality "X" "== garbage\n12 cells truncated").1

/-- C10 witness: a record already holding 5 AND gates, after a line with
count 7, holds exactly 7 — the previous value is overwritten, not added. -/
theorem C10_overwrite_not_accumulate_witness :
    (applyGateLine { name := "X", and_gates := 5 } ("7 $_AND_".toList)).and_gates = 7 :=
  C10_overwrite_not_accumulate.1 { name := "X", and_gates := 5 }
